import Mathlib

/-!
Shallow embedding of the lead-generation pipeline
(`lead_generation_pipeline.py`, `apollo_enricher.py`).

Python `None`-able string fields become `Option String`; Python string
truthiness (`None` and `""` falsy) is modelled by `truthyO`.  Operations
that can raise (`.lower()` on a `None` title) return `Option`.  The
ambient current date (`datetime.now()`) is passed explicitly as an
integer day number `now`.
-/

namespace LeadGen

/-- Python truthiness of an optional string: `None` and `""` are falsy. -/
def truthyO : Option String → Bool
  | none => false
  | some s => !(s == "")

/-- Python `a or b` on optional strings: yields `a` when truthy, else `b`. -/
def pyOr (a b : Option String) : Option String :=
  if truthyO a then a else b

/-- Models `str.lower()` (ASCII range, which covers every keyword used). -/
def pyLower (s : String) : String :=
  String.mk (s.data.map Char.toLower)

/-- Does the second list start with the first list? -/
def startsWithChars : List Char → List Char → Bool
  | [], _ => true
  | _ :: _, [] => false
  | a :: as, b :: bs => a == b && startsWithChars as bs

/-- Does the second list contain the first list as a contiguous run? -/
def containsChars (needle : List Char) : List Char → Bool
  | [] => startsWithChars needle []
  | c :: rest => startsWithChars needle (c :: rest) || containsChars needle rest

/-- Models Python `needle in hay` substring containment. -/
def strContains (hay needle : String) : Bool :=
  containsChars needle.data hay.data

/-! ### Calendar arithmetic (models `datetime` day subtraction) -/

def isLeapYear (y : Nat) : Bool :=
  (y % 4 == 0 && y % 100 != 0) || y % 400 == 0

def daysInMonth (y m : Nat) : Nat :=
  if m == 2 then (if isLeapYear y then 29 else 28)
  else if m == 4 || m == 6 || m == 9 || m == 11 then 30
  else 31

def daysBeforeMonth (y m : Nat) : Nat :=
  ((List.range (m - 1)).map (fun i => daysInMonth y (i + 1))).sum

/-- Proleptic Gregorian day number of a civil date (0001-01-01 is day 1). -/
def dayNumber (y m d : Nat) : Nat :=
  365 * (y - 1) + (y - 1) / 4 - (y - 1) / 100 + (y - 1) / 400 + daysBeforeMonth y m + d

def splitDashAux : List Char → List Char → List (List Char)
  | acc, [] => [acc.reverse]
  | acc, c :: rest =>
    if c = '-' then acc.reverse :: splitDashAux [] rest
    else splitDashAux (c :: acc) rest

/-- Split a character list on the dash separator (models `s.split("-")`). -/
def splitOnDash (cs : List Char) : List (List Char) :=
  splitDashAux [] cs

/-- The numeric value of a nonempty all-digit character run, else `none`. -/
def digitsToNat? (cs : List Char) : Option Nat :=
  if cs ≠ [] ∧ cs.all (fun c => c.isDigit) then
    some (cs.foldl (fun a c => a * 10 + (c.toNat - 48)) 0)
  else none

/-- Models `datetime.strptime(s, "%Y-%m-%d")`: four-digit year, one- or
two-digit month and day, month in 1..12, day valid for the month, year
at least 1; any failure (the `ValueError` path) is `none`. -/
def strptime_Ymd (s : String) : Option Nat :=
  match splitOnDash s.data with
  | [ys, ms, ds] =>
    match digitsToNat? ys, digitsToNat? ms, digitsToNat? ds with
    | some y, some m, some d =>
      if ys.length = 4 ∧ (ms.length = 1 ∨ ms.length = 2) ∧ (ds.length = 1 ∨ ds.length = 2) ∧
          1 ≤ m ∧ m ≤ 12 ∧ 1 ≤ d ∧ d ≤ 31 ∧ 1 ≤ y ∧ d ≤ daysInMonth y m
      then some (dayNumber y m d)
      else none
    | _, _, _ => none
  | _ => none

/-- The raw `posted_date` dictionary value: absent (or `None`), a string,
or a native date (carried as its day number). -/
inductive PostedDate where
  | absent
  | str (s : String)
  | date (dayNum : Int)
deriving DecidableEq

/-- Models `JobListing._calculate_days_open`: 0 for a falsy value, 0 for an
unparseable string, else current day minus posted day. -/
def _calculate_days_open (now : Int) : PostedDate → Int
  | PostedDate.absent => 0
  | PostedDate.str s =>
    if s = "" then 0
    else
      match strptime_Ymd s with
      | none => 0
      | some dn => now - (dn : Int)
  | PostedDate.date dn => now - dn

/-! ### Data models -/

/-- The raw input dictionary for `JobListing.__init__` (a missing key is
`none`; `posted_date` distinguishes the three value kinds). -/
structure JobData where
  title : Option String := none
  company_name : Option String := none
  company_website : Option String := none
  location : Option String := none
  posted_date : PostedDate := PostedDate.absent
  job_url : Option String := none
  description : Option String := none
  source : Option String := none
deriving DecidableEq

structure JobListing where
  title : Option String := none
  company_name : Option String := none
  company_website : Option String := none
  location : Option String := none
  posted_date : PostedDate := PostedDate.absent
  job_url : Option String := none
  description : String := ""
  source : String := "Mock"
  days_open : Int := 0
  pain_score : Int := 0
deriving DecidableEq

/-- Models `JobListing.__init__(data)` at current day `now`: `data.get`
for each field, `description` defaulting to `""`, `source` to `"Mock"`,
derived `days_open`, and `pain_score` initialised to 0. -/
def JobListing.ofData (now : Int) (d : JobData) : JobListing :=
  { title := d.title
    company_name := d.company_name
    company_website := d.company_website
    location := d.location
    posted_date := d.posted_date
    job_url := d.job_url
    description := d.description.getD ""
    source := d.source.getD "Mock"
    days_open := _calculate_days_open now d.posted_date
    pain_score := 0 }

structure Contact where
  first_name : Option String := none
  last_name : Option String := none
  email : Option String := none
  phone : Option String := none
  title : Option String := none
  seniority : Option String := none
  linkedin_url : Option String := none
deriving DecidableEq

/-- Models `Contact.is_complete`:
`bool(first_name and last_name and (email or phone))` under Python
truthiness. -/
def Contact.is_complete (c : Contact) : Bool :=
  truthyO c.first_name && truthyO c.last_name && (truthyO c.email || truthyO c.phone)

/-! ### Domain extraction

Models `re.search(r'(?:https?://)?(?:www\.)?([a-zA-Z0-9-]+\.[a-zA-Z]{2,})', url)`
with the backtracking order of the Python `re` engine: at each start
position, the optional scheme is tried greedily (`https://`, then
`http://`, then no scheme), then the optional `www.`, then a maximal
run of label characters, a literal dot, and at least two letters. -/

def isLabelChar (c : Char) : Bool :=
  c.isAlpha || c.isDigit || c == '-'

/-- Match `([a-zA-Z0-9-]+\.[a-zA-Z]{2,})` at the head of the list,
returning the captured group. -/
def tryBody (cs : List Char) : Option String :=
  let lab := cs.takeWhile isLabelChar
  if lab.isEmpty then none
  else
    match cs.drop lab.length with
    | '.' :: rest =>
      let tld := rest.takeWhile Char.isAlpha
      if 2 ≤ tld.length then some (String.mk (lab ++ '.' :: tld)) else none
    | _ => none

/-- Match the optional `www.` then the body, backtracking to no-`www.`. -/
def tryWww (cs : List Char) : Option String :=
  (if startsWithChars "www.".data cs then tryBody (cs.drop 4) else none) <|> tryBody cs

/-- Match the optional scheme then the rest, backtracking to no scheme. -/
def tryScheme (cs : List Char) : Option String :=
  (if startsWithChars "https://".data cs then tryWww (cs.drop 8) else none)
  <|> (if startsWithChars "http://".data cs then tryWww (cs.drop 7) else none)
  <|> tryWww cs

/-- `re.search`: try the pattern at each successive start position. -/
def re_search_host : List Char → Option String
  | [] => tryScheme []
  | c :: rest =>
    match tryScheme (c :: rest) with
    | some r => some r
    | none => re_search_host rest

/-- Models `EnrichedLead._extract_domain`: `None` for a falsy url, else
the first regex match's captured group, or `None` when there is none. -/
def _extract_domain (url : Option String) : Option String :=
  match url with
  | none => none
  | some u => if u = "" then none else re_search_host u.data

structure EnrichedLead where
  job : JobListing
  contacts : List Contact := []
  company_domain : Option String := none
  job_summary : String := ""
deriving DecidableEq

/-- Models `EnrichedLead.__init__(job)`. -/
def EnrichedLead.ofJob (job : JobListing) : EnrichedLead :=
  { job := job
    contacts := []
    company_domain := _extract_domain job.company_website
    job_summary := "" }

/-- Models `EnrichedLead.add_contact`: append only a complete contact,
silently drop an incomplete one. -/
def EnrichedLead.add_contact (lead : EnrichedLead) (c : Contact) : EnrichedLead :=
  if c.is_complete then { lead with contacts := lead.contacts ++ [c] } else lead

/-! ### Configuration (`Config` class constants) -/

namespace Config

def MIN_PAIN_SCORE : Int := 60

def HIGH_PAIN_THRESHOLD : Int := 80

def MIN_CONTACTS_PER_COMPANY : Nat := 3

end Config

/-- Models `EnrichedLead.is_qualified`. -/
def EnrichedLead.is_qualified (lead : EnrichedLead) : Bool :=
  decide (Config.MIN_CONTACTS_PER_COMPANY ≤ lead.contacts.length) &&
  decide (Config.MIN_PAIN_SCORE ≤ lead.job.pain_score)

/-! ### Pain scoring and filtering (`JobFilter`) -/

def senior_keywords : List String := [ "senior", "lead", "principal", "sr.", "sr " ]

def tech_keywords : List String :=
  [ "sap", "security", "cybersecurity", "cyber security", "cloud", "enterprise" ]

def complex_keywords : List String := [ "consultative", "enterprise", "b2b", "solution" ]

/-- Models `JobFilter.calculate_pain_score`; `none` models the
`AttributeError` raised by `job.title.lower()` when the title is `None`. -/
def calculate_pain_score (job : JobListing) : Option Int :=
  job.title.map fun title =>
    let score : Int := 50
    let score := if 60 < job.days_open then score + 15
      else if 30 < job.days_open then score + 20 else score
    let score := if senior_keywords.any (fun kw => strContains (pyLower title) kw)
      then score + 10 else score
    let description_lower := pyLower job.description
    let score := if tech_keywords.any (fun kw => strContains description_lower kw)
      then score + 10 else score
    let score := if complex_keywords.any (fun kw => strContains description_lower kw)
      then score + 10 else score
    let score := if strContains description_lower "inside sales" then score - 30 else score
    max 0 score

def junior_keywords : List String := [ "junior", "trainee", "intern", "entry" ]

def sdr_keywords : List String := [ "sdr", "bdr" ]

/-- Models `JobFilter.should_exclude`; `none` models the `AttributeError`
raised by `job.title.lower()` when the title is `None`. -/
def should_exclude (job : JobListing) : Option Bool :=
  job.title.map fun title =>
    let title_lower := pyLower title
    if junior_keywords.any (fun kw => strContains title_lower kw) then true
    else if sdr_keywords.any (fun kw => strContains title_lower kw) then true
    else false

/-- Models `JobFilter.filter_and_score`: drop excluded jobs, assign the
computed `pain_score`, keep jobs reaching `MIN_PAIN_SCORE`, in order;
`none` models an uncaught exception from a title-less job. -/
def filter_and_score : List JobListing → Option (List JobListing)
  | [] => some []
  | job :: rest =>
    match should_exclude job with
    | none => none
    | some true => filter_and_score rest
    | some false =>
      match calculate_pain_score job with
      | none => none
      | some s =>
        match filter_and_score rest with
        | none => none
        | some tail =>
          if Config.MIN_PAIN_SCORE ≤ s then some ({ job with pain_score := s } :: tail)
          else some tail

/-! ### Apollo enrichment (`apollo_enricher.py`) -/

/-- One entry of an Apollo `phone_numbers` list. -/
structure PhoneNumber where
  type : Option String := none
  sanitized_number : Option String := none
  number : Option String := none
deriving DecidableEq

/-- One entry of an Apollo `people` response. -/
structure Person where
  first_name : Option String := none
  last_name : Option String := none
  email : Option String := none
  phone_numbers : List PhoneNumber := []
  title : Option String := none
  linkedin_url : Option String := none
deriving DecidableEq

/-- The standardized contact dictionary produced by the enricher. -/
structure ContactData where
  first_name : Option String := none
  last_name : Option String := none
  email : Option String := none
  phone : Option String := none
  title : Option String := none
  seniority : Option String := none
  linkedin_url : Option String := none
  source : Option String := none
deriving DecidableEq

/-- Models `Contact.__init__(data)`: the seven fields read via `data.get`. -/
def Contact.ofData (d : ContactData) : Contact :=
  { first_name := d.first_name
    last_name := d.last_name
    email := d.email
    phone := d.phone
    title := d.title
    seniority := d.seniority
    linkedin_url := d.linkedin_url }

/-- Models the phone-selection loop of `_transform_apollo_contact`:
prefer the first mobile or work number, else the first available. -/
def pickPhone (pns : List PhoneNumber) : Option String :=
  match pns with
  | [] => none
  | first :: _ =>
    let phone := match pns.find? (fun pn =>
        pn.type == some "mobile" || pn.type == some "work") with
      | some pn => pyOr pn.sanitized_number pn.number
      | none => none
    if truthyO phone then phone
    else pyOr first.sanitized_number first.number

/-- Models `ApolloEnricher._determine_seniority`. -/
def _determine_seniority (title : String) : String :=
  let title_lower := pyLower title
  if [ "ceo", "chief", "president", "founder", "geschäftsführer" ].any
      (fun w => strContains title_lower w) then "C-Level"
  else if [ "vp", "vice president", "evp", "svp" ].any
      (fun w => strContains title_lower w) then "VP"
  else if [ "head", "director", "leiter" ].any
      (fun w => strContains title_lower w) then "Head/Director"
  else if [ "manager", "lead" ].any
      (fun w => strContains title_lower w) then "Manager"
  else "Other"

/-- Models `ApolloEnricher._transform_apollo_contact`. -/
def _transform_apollo_contact (p : Person) : ContactData :=
  { first_name := p.first_name
    last_name := p.last_name
    email := p.email
    phone := pickPhone p.phone_numbers
    title := p.title
    seniority := some (_determine_seniority (pyLower (p.title.getD "")))
    linkedin_url := p.linkedin_url
    source := some "apollo.io" }

/-- Models `ApolloEnricher.enrich_company`, with the HTTP exchange as a
parameter: a `requests` failure (`RequestException`, including a bad
status) is caught and yields `[]`; a successful response's `people` are
transformed and kept only when they carry a truthy email. -/
def enrich_company (response : Except String (List Person)) : List ContactData :=
  match response with
  | Except.error _ => []
  | Except.ok people =>
    (people.map _transform_apollo_contact).filter (fun c => truthyO c.email)

/-! ### Pipeline enrichment stage (`LeadGenerationPipeline.run`, step 3) -/

/-- Outcome of one `enricher.enrich_company(domain, max_contacts)` call as
observed inside the pipeline loop: a returned list, or a raised exception. -/
inductive EnrichResult where
  | contacts (cds : List ContactData)
  | raised
deriving DecidableEq

/-- Outcome of one `summarizer.generate_summary(job)` call. -/
inductive SummaryResult where
  | text (s : String)
  | raised
deriving DecidableEq

/-- Models one iteration of the step-3 loop of `run`: build the lead;
when it has a truthy domain, ask the enrichment gateway, treating a
raised exception as zero contacts; attach each returned contact; then
set the summary, substituting the fixed fallback text on failure. -/
def processLead (enrich : String → Nat → EnrichResult)
    (summarize : JobListing → SummaryResult) (job : JobListing) : EnrichedLead :=
  let lead := EnrichedLead.ofJob job
  let lead := match lead.company_domain with
    | none => lead
    | some dom =>
      if dom = "" then lead
      else
        match enrich dom 5 with
        | EnrichResult.raised => lead
        | EnrichResult.contacts cds =>
          cds.foldl (fun l cd => l.add_contact (Contact.ofData cd)) lead
  let summary := match summarize job with
    | SummaryResult.text s => s
    | SummaryResult.raised => "Summary generation failed"
  { lead with job_summary := summary }

/-- Models the whole step-3 loop of `run`: each job is processed in order
and the lead is kept exactly when it qualifies. -/
def processLeads (enrich : String → Nat → EnrichResult)
    (summarize : JobListing → SummaryResult) : List JobListing → List EnrichedLead
  | [] => []
  | job :: rest =>
    let lead := processLead enrich summarize job
    if lead.is_qualified then lead :: processLeads enrich summarize rest
    else processLeads enrich summarize rest

/-! ### Helper lemmas about the scoring function -/

/-- The age signal of `calculate_pain_score`, isolated. -/
def ageBonus (d : Int) : Int :=
  if 60 < d then 15 else if 30 < d then 20 else 0

/-- The title and description signals of `calculate_pain_score`, isolated. -/
def otherSignals (title desc : String) : Int :=
  (if senior_keywords.any (fun kw => strContains (pyLower title) kw) then 10 else 0)
  + (if tech_keywords.any (fun kw => strContains (pyLower desc) kw) then 10 else 0)
  + (if complex_keywords.any (fun kw => strContains (pyLower desc) kw) then 10 else 0)
  + (if strContains (pyLower desc) "inside sales" then -30 else 0)

lemma otherSignals_lb (title desc : String) : -30 ≤ otherSignals title desc := by
  unfold otherSignals
  split <;> split <;> split <;> split <;> omega

lemma otherSignals_ub (title desc : String) : otherSignals title desc ≤ 30 := by
  unfold otherSignals
  split <;> split <;> split <;> split <;> omega

lemma ageBonus_nonneg (d : Int) : 0 ≤ ageBonus d := by
  unfold ageBonus
  split <;> [omega; split <;> omega]

lemma calculate_pain_score_eq (j : JobListing) (t : String) (h : j.title = some t) :
    calculate_pain_score j = some (50 + ageBonus j.days_open + otherSignals t j.description) := by
  unfold calculate_pain_score ageBonus otherSignals
  rw [h, Option.map_some']
  congr 1
  by_cases h1 : (60 : Int) < j.days_open <;>
    by_cases h2 : (30 : Int) < j.days_open <;>
    by_cases h3 : senior_keywords.any (fun kw => strContains (pyLower t) kw) = true <;>
    by_cases h4 : tech_keywords.any (fun kw => strContains (pyLower j.description) kw) = true <;>
    by_cases h5 : complex_keywords.any (fun kw => strContains (pyLower j.description) kw) = true <;>
    by_cases h6 : strContains (pyLower j.description) "inside sales" = true <;>
    simp only [h1, h2, h3, h4, h5, h6, if_true, if_false, if_pos, if_neg,
      Bool.not_eq_true, ite_true, ite_false, eq_self_iff_true, not_true, not_false_iff] <;>
    simp [max_def]

/-- C1: the age signal of `calculate_pain_score` gives no bonus up to 30
days, exactly +20 for 31-60 days and exactly +15 beyond 60 days; the two
bonuses are mutually exclusive, so an otherwise-identical job open more
than 60 days scores exactly 5 less than one open 31-60 days. -/
theorem calculate_pain_score_age_signal (j : JobListing) (t : String)
    (ht : j.title = some t) (d1 d2 d3 : Int)
    (h1 : d1 ≤ 30) (h2 : 30 < d2) (h2b : d2 ≤ 60) (h3 : 60 < d3) :
    ∃ s1 s2 s3 : Int,
      calculate_pain_score { j with days_open := d1 } = some s1 ∧
      calculate_pain_score { j with days_open := d2 } = some s2 ∧
      calculate_pain_score { j with days_open := d3 } = some s3 ∧
      s2 = s1 + 20 ∧ s3 = s1 + 15 ∧ s3 = s2 - 5 := by
  have e1 := calculate_pain_score_eq { j with days_open := d1 } t ht
  have e2 := calculate_pain_score_eq { j with days_open := d2 } t ht
  have e3 := calculate_pain_score_eq { j with days_open := d3 } t ht
  have a1 : ageBonus d1 = 0 := by unfold ageBonus; rw [if_neg (by omega), if_neg (by omega)]
  have a2 : ageBonus d2 = 20 := by unfold ageBonus; rw [if_neg (by omega), if_pos (by omega)]
  have a3 : ageBonus d3 = 15 := by unfold ageBonus; rw [if_pos (by omega)]
  refine ⟨_, _, _, e1, e2, e3, ?_, ?_, ?_⟩ <;>
    simp only [a1, a2, a3] <;> omega

def wJobC1 : JobListing := { title := some "Sales Rep", description := "b2b" }

theorem calculate_pain_score_age_signal_witness :
    ∃ s1 s2 s3 : Int,
      calculate_pain_score { wJobC1 with days_open := 10 } = some s1 ∧
      calculate_pain_score { wJobC1 with days_open := 45 } = some s2 ∧
      calculate_pain_score { wJobC1 with days_open := 70 } = some s3 ∧
      s2 = s1 + 20 ∧ s3 = s1 + 15 ∧ s3 = s2 - 5 :=
  calculate_pain_score_age_signal wJobC1 "Sales Rep" rfl 10 45 70
    (by decide) (by decide) (by decide) (by decide)

/-- C9: for every job with a present title, `calculate_pain_score`
returns a value, and that value is at least 0 (the `max(0, score)`
floor), even when the negative inside-sales signal fires alone. -/
theorem pain_score_nonneg (j : JobListing) (t : String) (ht : j.title = some t)
    (s : Int) (hs : calculate_pain_score j = some s) : 0 ≤ s := by
  have e := calculate_pain_score_eq j t ht
  rw [e] at hs
  have := otherSignals_lb t j.description
  have := ageBonus_nonneg j.days_open
  have : s = 50 + ageBonus j.days_open + otherSignals t j.description := by
    exact (Option.some.injEq _ _ ▸ hs).symm
  omega

def wJobC9 : JobListing := { title := some "Sales", description := "inside sales" }

theorem pain_score_nonneg_witness :
    calculate_pain_score wJobC9 = some 20 ∧ (0 : Int) ≤ 20 :=
  ⟨by decide, pain_score_nonneg wJobC9 "Sales" rfl 20 (by decide)⟩

/-- C2: `is_qualified` is true exactly when the lead has at least the
configured minimum number of contacts (default 3) and its job's pain
score is at least the configured minimum (default 60); both boundaries
qualify, and the predicate is a function of the current contact list and
job score only. -/
theorem is_qualified_iff (lead : EnrichedLead) :
    lead.is_qualified = true ↔ 3 ≤ lead.contacts.length ∧ 60 ≤ lead.job.pain_score := by
  unfold EnrichedLead.is_qualified Config.MIN_CONTACTS_PER_COMPANY Config.MIN_PAIN_SCORE
  simp [Bool.and_eq_true]

/-- C7: domain extraction is a total function and behaves as the spec
describes on the reference inputs: a schemed url with a `www.` prefix and
path yields the registrable host, a bare domain yields itself, and a
missing, empty or pattern-free url yields no domain. -/
theorem extract_domain_examples :
    _extract_domain (some "https://www.example.com/careers") = some "example.com" ∧
    _extract_domain (some "example.de") = some "example.de" ∧
    _extract_domain none = none ∧
    _extract_domain (some "") = none ∧
    _extract_domain (some "not a url") = none := by
  refine ⟨by decide, by decide, rfl, by decide, by decide⟩

/-! ### Contact attachment (C4) -/

lemma foldl_add_contact (cs : List Contact) (lead : EnrichedLead) :
    (cs.foldl EnrichedLead.add_contact lead).contacts
      = lead.contacts ++ cs.filter (fun c => c.is_complete) := by
  induction cs generalizing lead with
  | nil => simp
  | cons c rest ih =>
    rw [List.foldl_cons, ih, List.filter_cons]
    unfold EnrichedLead.add_contact
    by_cases hc : c.is_complete = true
    · simp [hc]
    · simp [hc]

/-- C4: folding any sequence of `add_contact` calls over a fresh lead
attaches exactly the complete contacts, in insertion order; every
attached contact is complete, so a contact missing both email and phone
is never attached. -/
theorem add_contact_complete_invariant (job : JobListing) (cs : List Contact) :
    (cs.foldl EnrichedLead.add_contact (EnrichedLead.ofJob job)).contacts
      = cs.filter (fun c => c.is_complete) ∧
    ∀ c, c ∈ (cs.foldl EnrichedLead.add_contact (EnrichedLead.ofJob job)).contacts →
      c.is_complete = true ∧ (truthyO c.email || truthyO c.phone) = true := by
  have he : (EnrichedLead.ofJob job).contacts = [] := rfl
  have heq := foldl_add_contact cs (EnrichedLead.ofJob job)
  rw [he, List.nil_append] at heq
  refine ⟨heq, fun c hc => ?_⟩
  rw [heq] at hc
  have hcomp := List.of_mem_filter hc
  refine ⟨hcomp, ?_⟩
  unfold Contact.is_complete at hcomp
  simp only [Bool.and_eq_true] at hcomp
  exact hcomp.2

def wContactFull : Contact :=
  { first_name := some "Ada", last_name := some "Nash", email := some "a@ex.com" }

def wContactNoReach : Contact :=
  { first_name := some "Bo", last_name := some "Ek" }

theorem add_contact_complete_invariant_witness :
    ([ wContactFull, wContactNoReach ].foldl EnrichedLead.add_contact
        (EnrichedLead.ofJob { title := some "T" })).contacts = [ wContactFull ] ∧
    wContactFull.is_complete = true ∧
    (truthyO wContactFull.email || truthyO wContactFull.phone) = true :=
  ⟨(add_contact_complete_invariant { title := some "T" }
      [ wContactFull, wContactNoReach ]).1.trans (by decide),
   (add_contact_complete_invariant { title := some "T" }
      [ wContactFull, wContactNoReach ]).2 wContactFull (by decide) |>.1,
   (add_contact_complete_invariant { title := some "T" }
      [ wContactFull, wContactNoReach ]).2 wContactFull (by decide) |>.2⟩

/-! ### Days-open derivation (C3) -/

/-- C3 counterexample: with the current day 2026-10-12, a record whose
`posted_date` is the parseable string 2026-10-13 is constructed without
raising but gets a negative `days_open`, and a record posted on the
current day gets `days_open = 0` although its date is present and
parseable — refuting both the nonnegativity claim and the claim that
`days_open = 0` happens exactly for an absent or unparseable date. -/
theorem days_open_claim_counterexample :
    _calculate_days_open ((dayNumber 2026 10 12 : Nat) : Int) (PostedDate.str "2026-10-13") < 0 ∧
    (strptime_Ymd "2026-10-12").isSome = true ∧
    _calculate_days_open ((dayNumber 2026 10 12 : Nat) : Int) (PostedDate.str "2026-10-12") = 0 := by
  refine ⟨by decide, by decide, by decide⟩

/-- C3 as amended: construction never raises (the function is total);
`days_open` is 0 when the posted date is absent or an unparseable
string; when the date parses to (or is) day `dn`, `days_open` is the
current day minus `dn`, which is nonnegative whenever the posted date
does not lie after the current day. -/
theorem calculate_days_open_spec (now : Int) :
    _calculate_days_open now PostedDate.absent = 0 ∧
    (∀ s, strptime_Ymd s = none → _calculate_days_open now (PostedDate.str s) = 0) ∧
    (∀ s dn, strptime_Ymd s = some dn →
      _calculate_days_open now (PostedDate.str s) = now - (dn : Int)) ∧
    (∀ dn : Int, _calculate_days_open now (PostedDate.date dn) = now - dn) ∧
    (∀ s dn, strptime_Ymd s = some dn → (dn : Int) ≤ now →
      0 ≤ _calculate_days_open now (PostedDate.str s)) ∧
    (∀ dn : Int, dn ≤ now → 0 ≤ _calculate_days_open now (PostedDate.date dn)) := by
  have hstr : ∀ s dn, strptime_Ymd s = some dn →
      _calculate_days_open now (PostedDate.str s) = now - (dn : Int) := by
    intro s dn hp
    by_cases hs : s = ""
    · subst hs
      rw [show strptime_Ymd "" = none from rfl] at hp
      exact Option.noConfusion hp
    · simp only [_calculate_days_open, if_neg hs, hp]
  refine ⟨rfl, ?_, hstr, fun dn => rfl, ?_, ?_⟩
  · intro s hp
    by_cases hs : s = ""
    · simp only [_calculate_days_open, if_pos hs]
    · simp only [_calculate_days_open, if_neg hs, hp]
  · intro s dn hp hle
    rw [hstr s dn hp]
    omega
  · intro dn hle
    simp only [_calculate_days_open]
    omega

theorem calculate_days_open_spec_witness :
    strptime_Ymd "0001-01-02" = some 2 ∧
    _calculate_days_open 1000 (PostedDate.str "0001-01-02") = 1000 - 2 ∧
    0 ≤ _calculate_days_open 1000 (PostedDate.str "0001-01-02") ∧
    strptime_Ymd "bad-date" = none ∧
    _calculate_days_open 1000 (PostedDate.str "bad-date") = 0 :=
  ⟨by decide,
   (calculate_days_open_spec 1000).2.2.1 "0001-01-02" 2 (by decide),
   (calculate_days_open_spec 1000).2.2.2.2.1 "0001-01-02" 2 (by decide) (by decide),
   by decide,
   (calculate_days_open_spec 1000).2.1 "bad-date" (by decide)⟩

/-! ### Filtering lemmas (C5, C6) -/

lemma mem_filter_and_score {jobs out : List JobListing} (h : filter_and_score jobs = some out)
    {j : JobListing} (hj : j ∈ out) :
    ∃ j0, j0 ∈ jobs ∧ ∃ s, should_exclude j0 = some false ∧ j = { j0 with pain_score := s } := by
  induction jobs generalizing out with
  | nil =>
    simp only [filter_and_score, Option.some.injEq] at h
    subst h
    cases hj
  | cons job rest ih =>
    simp only [filter_and_score] at h
    cases hex : should_exclude job with
    | none => simp only [hex] at h; exact Option.noConfusion h
    | some b =>
      simp only [hex] at h
      cases b with
      | true =>
        obtain ⟨j0, hj0, s, hfalse, rfl⟩ := ih h hj
        exact ⟨j0, List.mem_cons_of_mem _ hj0, s, hfalse, rfl⟩
      | false =>
        cases hcalc : calculate_pain_score job with
        | none => simp only [hcalc] at h; exact Option.noConfusion h
        | some s =>
          simp only [hcalc] at h
          cases hrest : filter_and_score rest with
          | none => simp only [hrest] at h; exact Option.noConfusion h
          | some tail =>
            simp only [hrest] at h
            by_cases hth : Config.MIN_PAIN_SCORE ≤ s
            · rw [if_pos hth] at h
              injection h with h'
              subst h'
              rcases List.mem_cons.mp hj with rfl | hjt
              · exact ⟨job, List.mem_cons_self _ _, s, hex, rfl⟩
              · obtain ⟨j0, hj0, s', hfalse, rfl⟩ := ih hrest hjt
                exact ⟨j0, List.mem_cons_of_mem _ hj0, s', hfalse, rfl⟩
            · rw [if_neg hth] at h
              injection h with h'
              subst h'
              obtain ⟨j0, hj0, s', hfalse, rfl⟩ := ih hrest hj
              exact ⟨j0, List.mem_cons_of_mem _ hj0, s', hfalse, rfl⟩

lemma keywords_of_should_exclude_false (j : JobListing) (t : String) (ht : j.title = some t)
    (h : should_exclude j = some false) :
    ∀ kw ∈ junior_keywords ++ sdr_keywords, strContains (pyLower t) kw = false := by
  simp only [should_exclude, ht, Option.map_some', Option.some.injEq] at h
  by_cases h1 : junior_keywords.any (fun kw => strContains (pyLower t) kw) = true
  · rw [if_pos h1] at h; exact Bool.noConfusion h
  · rw [if_neg h1] at h
    by_cases h2 : sdr_keywords.any (fun kw => strContains (pyLower t) kw) = true
    · rw [if_pos h2] at h; exact Bool.noConfusion h
    · intro kw hkw
      rcases List.mem_append.mp hkw with hmem | hmem
      · cases hc : strContains (pyLower t) kw with
        | false => rfl
        | true => exact absurd (List.any_eq_true.mpr ⟨kw, hmem, hc⟩) h1
      · cases hc : strContains (pyLower t) kw with
        | false => rfl
        | true => exact absurd (List.any_eq_true.mpr ⟨kw, hmem, hc⟩) h2

/-- C5: a job whose (present) title contains one of the exclusion
keywords — junior, trainee, intern, entry, sdr, bdr — as a
case-insensitive substring is excluded by `should_exclude` regardless of
every other field, and no job in a `filter_and_score` output contains
any of those keywords in its title. -/
theorem should_exclude_junior_signal :
    (∀ (j : JobListing) (t : String), j.title = some t →
      (∃ kw ∈ junior_keywords ++ sdr_keywords, strContains (pyLower t) kw = true) →
      should_exclude j = some true) ∧
    (∀ jobs out, filter_and_score jobs = some out →
      ∀ j ∈ out, ∀ t, j.title = some t →
        ∀ kw ∈ junior_keywords ++ sdr_keywords, strContains (pyLower t) kw = false) := by
  constructor
  · rintro j t ht ⟨kw, hkw, hc⟩
    simp only [should_exclude, ht, Option.map_some', Option.some.injEq]
    rcases List.mem_append.mp hkw with hmem | hmem
    · rw [if_pos (List.any_eq_true.mpr ⟨kw, hmem, hc⟩)]
    · by_cases h1 : junior_keywords.any (fun kw => strContains (pyLower t) kw) = true
      · rw [if_pos h1]
      · rw [if_neg h1, if_pos (List.any_eq_true.mpr ⟨kw, hmem, hc⟩)]
  · intro jobs out hfs j hj t ht kw hkw
    obtain ⟨j0, _, s, hfalse, rfl⟩ := mem_filter_and_score hfs hj
    exact keywords_of_should_exclude_false j0 t ht hfalse kw hkw

def wJobIntern : JobListing := { title := some "Intern Developer" }

def wJobC5 : JobListing :=
  { title := some "Senior Sales Engineer", description := "enterprise b2b", days_open := 45 }

theorem should_exclude_junior_signal_witness :
    should_exclude wJobIntern = some true ∧
    strContains (pyLower "Senior Sales Engineer") "intern" = false :=
  ⟨should_exclude_junior_signal.1 wJobIntern "Intern Developer" rfl
      ⟨"intern", by decide, by decide⟩,
   should_exclude_junior_signal.2 [ wJobC5 ] [ { wJobC5 with pain_score := 100 } ] (by decide)
      { wJobC5 with pain_score := 100 } (by decide) "Senior Sales Engineer" rfl "intern"
      (by decide)⟩

/-- C6: on a batch of jobs with present titles, `filter_and_score`
returns exactly the subsequence of jobs that are not excluded and whose
computed pain score reaches `MIN_PAIN_SCORE`, each with its `pain_score`
field set to the computed score, in the original relative order. -/
theorem filter_and_score_spec (jobs : List JobListing) (h : ∀ j ∈ jobs, j.title ≠ none) :
    filter_and_score jobs = some (jobs.filterMap fun j =>
      match should_exclude j, calculate_pain_score j with
      | some false, some s =>
        if Config.MIN_PAIN_SCORE ≤ s then some { j with pain_score := s } else none
      | _, _ => none) := by
  induction jobs with
  | nil => rfl
  | cons job rest ih =>
    have hne : job.title ≠ none := h job (List.mem_cons_self _ _)
    have hrest := ih (fun j hj => h j (List.mem_cons_of_mem _ hj))
    obtain ⟨t, ht⟩ := Option.ne_none_iff_exists'.mp hne
    cases hex : should_exclude job with
    | none => exact absurd hex (by simp [should_exclude, ht])
    | some b =>
      cases hcalc : calculate_pain_score job with
      | none => exact absurd hcalc (by simp [calculate_pain_score, ht])
      | some s =>
        rw [List.filterMap_cons]
        cases b with
        | true => simp only [filter_and_score, hex, hcalc, hrest]
        | false =>
          simp only [filter_and_score, hex, hcalc, hrest]
          by_cases hth : Config.MIN_PAIN_SCORE ≤ s
          · simp [hth]
          · simp [hth]

def wJobC6 : JobListing :=
  { title := some "Senior Sales Engineer", description := "enterprise b2b", days_open := 45 }

theorem filter_and_score_spec_witness :
    filter_and_score [ wJobC6 ] = some [ { wJobC6 with pain_score := 100 } ] :=
  (filter_and_score_spec [ wJobC6 ] (by decide)).trans (by decide)

/-! ### Title-presence precondition (C10) -/

/-- C10: on a record without a title both scoring operations hit
`title.lower()` on `None` and raise (modelled as `none`); with any
present title both return a value even when the description key was
missing, because the description defaults to the empty string at
construction. -/
theorem title_presence_totality (now : Int) (d : JobData) :
    (d.title = none →
      calculate_pain_score (JobListing.ofData now d) = none ∧
      should_exclude (JobListing.ofData now d) = none) ∧
    (∀ t, d.title = some t →
      (calculate_pain_score (JobListing.ofData now d)).isSome = true ∧
      (should_exclude (JobListing.ofData now d)).isSome = true) ∧
    (d.description = none → (JobListing.ofData now d).description = "") := by
  refine ⟨fun h => ?_, fun t h => ?_, fun h => ?_⟩
  · constructor <;>
      simp only [calculate_pain_score, should_exclude, JobListing.ofData, h, Option.map_none']
  · constructor <;>
      simp only [calculate_pain_score, should_exclude, JobListing.ofData, h,
        Option.map_some', Option.isSome_some]
  · simp only [JobListing.ofData, h, Option.getD_none]

def wDataNoTitle : JobData := {}

def wDataTitled : JobData := { title := some "Sales" }

theorem title_presence_totality_witness :
    calculate_pain_score (JobListing.ofData 0 wDataNoTitle) = none ∧
    should_exclude (JobListing.ofData 0 wDataNoTitle) = none ∧
    (calculate_pain_score (JobListing.ofData 0 wDataTitled)).isSome = true ∧
    (JobListing.ofData 0 wDataTitled).description = "" :=
  ⟨((title_presence_totality 0 wDataNoTitle).1 rfl).1,
   ((title_presence_totality 0 wDataNoTitle).1 rfl).2,
   ((title_presence_totality 0 wDataTitled).2.1 "Sales" rfl).1,
   (title_presence_totality 0 wDataTitled).2.2 rfl⟩

/-! ### Enrichment failure recovery (C8) -/

/-- C8: a gateway failure for one company is recovered locally — the
lead keeps zero contacts and the loop result is still one processed lead
per input job, filtered by qualification at the end, so the batch never
aborts; and `ApolloEnricher.enrich_company` itself turns a transport
failure into an empty contact list, so the core only ever observes zero
or more contacts. -/
theorem enrichment_failure_recovery :
    (∀ (enrich : String → Nat → EnrichResult) (summarize : JobListing → SummaryResult)
        (job : JobListing) (dom : String),
      (EnrichedLead.ofJob job).company_domain = some dom →
      enrich dom 5 = EnrichResult.raised →
      (processLead enrich summarize job).contacts = []) ∧
    (∀ (enrich : String → Nat → EnrichResult) (summarize : JobListing → SummaryResult)
        (jobs : List JobListing),
      processLeads enrich summarize jobs
        = (jobs.map (processLead enrich summarize)).filter (fun l => l.is_qualified)) ∧
    (∀ msg : String, enrich_company (Except.error msg) = []) := by
  refine ⟨?_, ?_, fun msg => rfl⟩
  · intro enrich summarize job dom hdom henr
    simp only [processLead, hdom]
    by_cases hempty : dom = ""
    · simp only [if_pos hempty]
      rfl
    · simp only [if_neg hempty, henr]
      rfl
  · intro enrich summarize jobs
    induction jobs with
    | nil => rfl
    | cons job rest ih =>
      simp only [processLeads, List.map_cons, List.filter_cons, ih]

def wJobC8 : JobListing :=
  { title := some "Sales Engineer", company_website := some "https://acme.com" }

theorem enrichment_failure_recovery_witness :
    (processLead (fun _ _ => EnrichResult.raised) (fun _ => SummaryResult.raised)
        wJobC8).contacts = [] ∧
    processLeads (fun _ _ => EnrichResult.raised) (fun _ => SummaryResult.raised) [ wJobC8 ]
      = (([ wJobC8 ].map (processLead (fun _ _ => EnrichResult.raised)
          (fun _ => SummaryResult.raised))).filter (fun l => l.is_qualified)) ∧
    enrich_company (Except.error "network down") = [] :=
  ⟨enrichment_failure_recovery.1 (fun _ _ => EnrichResult.raised)
      (fun _ => SummaryResult.raised) wJobC8 "acme.com" (by decide) rfl,
   enrichment_failure_recovery.2.1 (fun _ _ => EnrichResult.raised)
      (fun _ => SummaryResult.raised) [ wJobC8 ],
   enrichment_failure_recovery.2.2 "network down"⟩

end LeadGen
